import Mathlib

/-!
Verification of the Charlaton chat microservice (Socket.IO room coordinator).

This file shallowly embeds the Socket.IO event handlers of `src/index.ts`
and the Firestore service helpers (`services/userConnection.ts`,
`services/roomAcessService.ts`, `services/connectionService.ts`,
`services/messageService.ts`-style helpers) as pure Lean functions over an
explicit server state, and proves properties of them.

Modelling conventions:
- JavaScript `undefined`-able values become `Option`.
- `Number(s)` on an id string is modelled by `jsNumber`; `none` stands for
  `NaN` (non-numeric strings).  Firestore equality filters treat `NaN` as
  equal to `NaN` (Firestore supports equality queries on NaN), so plain
  `Option` equality models the stored-vs-queried comparison.
- A Firestore field that may hold either a JS number or a JS string is
  modelled by `JsVal`; values of different types never compare equal.
- Timestamps (`new Date().toISOString()`) are modelled by a `Nat` clock
  value passed explicitly to each state-changing operation.
- The catch-branches that only fire on Firestore infrastructure failures
  are not modelled, except for message persistence, where the handler's
  behaviour on failure is the subject of a claim: there an explicit
  `persistOk` flag injects the outcome of the external write.
- Payload decoration (fetching display names / photos from the `users`
  collection) only enriches emitted payloads and is modelled by the plain
  list of member user ids.
-/

namespace Charlaton

/-- JavaScript `Number(s)` applied to an id string: numeric strings parse to
their value, everything else is `NaN`, modelled as `none`. -/
def jsNumber (s : String) : Option Int :=
  s.toInt?

/-- A Firestore field value that is either a JS number (possibly NaN) or a
JS string.  Values of different runtime types are never equal. -/
inductive JsVal where
  | num : Option Int → JsVal
  | str : String → JsVal
deriving DecidableEq, Repr

/-- JavaScript truthiness of a possibly-undefined string: `undefined` and
the empty string are falsy. -/
def jsTruthyStr : Option String → Bool
  | none => false
  | some s => s ≠ ""

/-- Decoded JWT payload attached to a socket (`JWTUser` in `types`). -/
structure JWTUser where
  id : String
  email : String
deriving DecidableEq, Repr

/-- Decoded Firebase ID token (`admin.auth().verifyIdToken` result): the
`email` claim may be absent. -/
structure FirebaseToken where
  uid : String
  email : Option String
deriving DecidableEq, Repr

/-- Per-socket mutable data (`socket.data`). -/
structure SocketData where
  user : Option JWTUser
  userId : Option String
  roomId : Option String
deriving DecidableEq, Repr

/-- One live Socket.IO socket: its id, data, the set of adapter rooms it has
joined (`socket.rooms`, own-sid room omitted), and whether it is connected. -/
structure SocketSt where
  sid : String
  data : SocketData
  rooms : List String
  connected : Bool
deriving DecidableEq, Repr

/-- Durable connection record stored under `rooms/{roomId}/connections`
(`userConnection.ts` writes `userId: Number(userId)`); `leftAt = none`
models the JSON `null` of an active record. -/
structure ConnRec where
  userId : JsVal
  joinedAt : Nat
  leftAt : Option Nat
deriving DecidableEq, Repr

/-- Durable access grant stored under `rooms/{roomId}/access`
(`roomAcessService.ts` writes `userId: Number(userId)` and
`grantedBy: Number(grantedBy)`). -/
structure GrantRec where
  userId : Option Int
  grantedBy : Option Int
  grantedAt : Nat
deriving DecidableEq, Repr

/-- Room document fields read by the handlers.  `deletedAt` distinguishes an
absent field (`none`), an explicit JSON null (`some none`) and a deletion
timestamp (`some (some t)`), because `roomAcessService.ts` tests
`deletedAt !== null`.  The source reads both an `adminsId` and an `adminId`
field, and both an `isPrivate` and a `private` field (`privateField` here,
since `private` is reserved in Lean). -/
structure RoomDoc where
  isPrivate : Option Bool
  privateField : Option Bool
  creatorId : Option String
  adminsId : Option (List String)
  adminId : Option (List String)
  deletedAt : Option (Option Nat)
deriving DecidableEq, Repr

/-- One entry of a private message's `target` array. -/
structure MsgTarget where
  userId : String
deriving DecidableEq, Repr

/-- Message document written by `createMessage` (unnamed service revision). -/
structure MsgRec where
  userId : String
  roomId : String
  content : String
  visibility : String
  target : List MsgTarget
  createAt : Nat
deriving DecidableEq, Repr

/-- The Firestore slice the handlers touch.  Sub-collections are flattened
into association lists keyed by the owning room id. -/
structure DB where
  rooms : List (String × RoomDoc)
  access : List (String × GrantRec)
  conns : List (String × ConnRec)
  msgs : List (String × MsgRec)
deriving DecidableEq, Repr

/-- In-memory presence entry of `connectionService.ts` (`OnlineUser`). -/
structure OnlineUser where
  socketId : String
  userId : String
  roomId : String
deriving DecidableEq, Repr

/-- Events a handler can emit, restricted to the payload fields the claims
inspect. -/
inductive EventPayload where
  | joinRoomError (message : String)
  | joinRoomSuccess (message : String) (roomId : String)
  | userJoined (userId : String) (roomId : String)
  | numberUsersOnline (n : Nat)
  | usersOnline (userIds : List String)
  | messageError (message : String)
  | messageSuccess (content : String) (userId : String) (roomId : String) (visibility : String)
  | newSuccess (content : String) (userId : String) (roomId : String) (visibility : String)
  | webrtcOfferEv (senderId : Option String) (sdp : String)
  | roomEnded (roomId : String)
deriving DecidableEq, Repr

/-- One emission: the recipient socket id and the payload. -/
structure Emission where
  target : String
  payload : EventPayload
deriving DecidableEq, Repr

/-- Whole-server state: the socket registry plus the Firestore slice. -/
structure ServerState where
  sockets : List SocketSt
  db : DB
deriving DecidableEq, Repr

/-- Lookup of a socket by id (`io.sockets.sockets.get`). -/
def getSocket? (st : ServerState) (sid : String) : Option SocketSt :=
  st.sockets.find? (fun s => decide (s.sid = sid))

/-- Replace the socket(s) with the given id by an updated value. -/
def updateSocket (st : ServerState) (sid : String) (f : SocketSt → SocketSt) :
    ServerState :=
  { st with sockets := st.sockets.map (fun s => if s.sid = sid then f s else s) }

/-- Members of an adapter room (`io.sockets.adapter.rooms.get(roomId)`),
in registry order; an empty list models the adapter returning `undefined`. -/
def roomSockets (st : ServerState) (roomId : String) : List SocketSt :=
  st.sockets.filter (fun s => s.connected && s.rooms.contains roomId)

/-- Room document lookup (`db.collection("rooms").doc(roomId).get()`);
`none` models a non-existing document. -/
def lookupRoom (db : DB) (roomId : String) : Option RoomDoc :=
  (db.rooms.find? (fun p => decide (p.1 = roomId))).map Prod.snd

/-- The access sub-collection of one room. -/
def grantsFor (db : DB) (roomId : String) : List GrantRec :=
  (db.access.filter (fun p => decide (p.1 = roomId))).map Prod.snd

/-- The connections sub-collection of one room. -/
def connsFor (db : DB) (roomId : String) : List ConnRec :=
  (db.conns.filter (fun p => decide (p.1 = roomId))).map Prod.snd

/-- Result shape of `roomAcessService.ts` calls (`success` flag plus the
Spanish status message the service returns). -/
structure AccessResult where
  success : Bool
  message : String
deriving DecidableEq, Repr

/-- The `success` flag of `getRoomAccessForUser` (`roomAcessService.ts`):
the `access` sub-collection of the room is filtered with
`where("userId", "==", Number(userId))`; an empty result means no access. -/
def getRoomAccessForUser (db : DB) (userId roomId : String) : Bool :=
  (grantsFor db roomId).any (fun g => decide (g.userId = jsNumber userId))

/-- `createRoomAccess` of `roomAcessService.ts`.  Mirrors, in order: the
room lookup with the `!roomDoc.exists || roomDoc.data()?.deletedAt !== null`
rejection, the `adminsId.includes(grantedBy) || grantedBy === creatorId`
authorization rule (an absent `adminsId` field makes `.includes` throw,
which the catch turns into the generic failure), and the append of the
grant document with `Number`-coerced ids. -/
def createRoomAccess (now : Nat) (db : DB) (userId roomId grantedBy : String) :
    DB × AccessResult :=
  match lookupRoom db roomId with
  | none => (db, ⟨false, "Sala no encontrada"⟩)
  | some room =>
    if room.deletedAt ≠ some none then
      (db, ⟨false, "Sala no encontrada"⟩)
    else
      match room.adminsId with
      | none => (db, ⟨false, "error al crear acceso"⟩)
      | some adminsId =>
        if ¬ adminsId.contains grantedBy ∧ room.creatorId ≠ some grantedBy then
          (db, ⟨false, "Solo los admins pueden dar acceso"⟩)
        else
          ({ db with access := db.access ++
              [(roomId, ⟨jsNumber userId, jsNumber grantedBy, now⟩)] },
           ⟨true, "aceso a sala creado correctamente"⟩)

/-- Match predicate of the `createConnection` / `leftConnection` query in
`userConnection.ts`: same room sub-collection, `userId == Number(userId)`,
`leftAt == null`. -/
def connActiveMatch (userId roomId : String) (p : String × ConnRec) : Bool :=
  decide (p.1 = roomId) && decide (p.2.userId = JsVal.num (jsNumber userId))
    && decide (p.2.leftAt = none)

/-- The active records the `createConnection` query would return for a
`(userId, roomId)` pair. -/
def activeFor (conns : List (String × ConnRec)) (userId roomId : String) :
    List ConnRec :=
  (conns.filter (connActiveMatch userId roomId)).map Prod.snd

/-- Refresh step of `createConnection`: `snap.docs[0]` (the first matching
document) gets `{ joinedAt: now, leftAt: null }`; everything else is kept. -/
def refreshConn (now : Nat) (userId roomId : String) :
    List (String × ConnRec) → List (String × ConnRec)
  | [] => []
  | p :: rest =>
    if connActiveMatch userId roomId p then
      (p.1, { p.2 with joinedAt := now, leftAt := none }) :: rest
    else
      p :: refreshConn now userId roomId rest

/-- `createConnection` of `userConnection.ts`: if an active record for the
pair exists, refresh its `joinedAt`; otherwise append a fresh record with
`userId: Number(userId)` and `leftAt: null`. -/
def createConnection (now : Nat) (userId roomId : String)
    (conns : List (String × ConnRec)) : List (String × ConnRec) :=
  if (conns.filter (connActiveMatch userId roomId)).isEmpty then
    conns ++ [(roomId, ⟨JsVal.num (jsNumber userId), now, none⟩)]
  else
    refreshConn now userId roomId conns

/-- The presence-registry entries of `connectionService.ts` matching a
`(userId, roomId)` pair. -/
def presFor (online : List OnlineUser) (userId roomId : String) :
    List OnlineUser :=
  online.filter (fun u => decide (u.userId = userId ∧ u.roomId = roomId))

/-- Reconnection step of `addUserConnection`: the entry at the first index
matching the pair gets its `socketId` replaced. -/
def replaceSocketId (socketId userId roomId : String) :
    List OnlineUser → List OnlineUser
  | [] => []
  | u :: rest =>
    if u.userId = userId ∧ u.roomId = roomId then
      { u with socketId := socketId } :: rest
    else
      u :: replaceSocketId socketId userId roomId rest

/-- `addUserConnection` of `connectionService.ts`: if the user already has
an entry for the room, update its `socketId` (reconnection); otherwise push
a new `{socketId, userId, roomId}` entry. -/
def addUserConnection (socketId userId roomId : String)
    (online : List OnlineUser) : List OnlineUser :=
  if online.any (fun u => decide (u.userId = userId ∧ u.roomId = roomId)) then
    replaceSocketId socketId userId roomId online
  else
    online ++ [⟨socketId, userId, roomId⟩]

/-- `sendMessageTo` (message service revision): `target.some(t => t.userId
=== userId)`; an undefined recipient user id matches nothing. -/
def sendMessageTo (target : List MsgTarget) (userId : Option String) : Bool :=
  target.any (fun t => decide (some t.userId = userId))

/-- The `io.use` authentication middleware of `index.ts`, as a function of
the handshake token and the two verification oracles (backend JWT first,
Firebase ID token as fallback).  Returns the socket data stored on success
or the argument of `next(new Error(...))` on failure.  The verifier error
values are what the strategies would log server-side; they never reach the
client-facing result. -/
def authMiddleware (token : Option String)
    (verifyLocal : String → Except String JWTUser)
    (verifyFirebase : String → Except String FirebaseToken) :
    Except String SocketData :=
  if ¬ jsTruthyStr token then
    .error "Authentication token required"
  else
    match token with
    | none => .error "Authentication token required"
    | some t =>
      match verifyLocal t with
      | .ok decoded => .ok ⟨some decoded, some decoded.id, none⟩
      | .error _ =>
        match verifyFirebase t with
        | .ok fb => .ok ⟨some ⟨fb.uid, fb.email.getD ""⟩, some fb.uid, none⟩
        | .error _ => .error "Invalid authentication token"

/-- The user id a socket resolves to in `emitRoomUsersState`
(`String(s.data.userId ?? s.data.user?.id)`). -/
def resolvedUid (s : SocketSt) : Option String :=
  match s.data.userId with
  | some u => some u
  | none => s.data.user.map (fun u => u.id)

/-- `emitRoomUsersState` of `index.ts`: recompute the member list of the
room, drop sockets with no usable user id (the `!userId || userId ===
"undefined" || userId === "null"` filter), and emit both the count and the
list to every member.  The per-user Firestore profile enrichment only
decorates the payload and is modelled by the plain user-id list. -/
def emitRoomUsersState (st : ServerState) (roomId : String) : List Emission :=
  let members := roomSockets st roomId
  let users := members.filterMap
    (fun s => if jsTruthyStr (resolvedUid s) then resolvedUid s else none)
  (members.map (fun s => ⟨s.sid, .numberUsersOnline users.length⟩))
    ++ (members.map (fun s => ⟨s.sid, .usersOnline users⟩))

/-- The inner `handleJoin` of the `join_room` handler: set `socket.data`,
`socket.join(roomId)`, create/refresh the durable connection record, emit
`join_room_success` to the joiner only, `user_joined` to the other members,
then broadcast the room state.  The Firestore-failure branch of
`createConnection` (infrastructure catch) is not modelled: the pure
transition always succeeds. -/
def handleJoin (st : ServerState) (sid userId roomId : String) (now : Nat) :
    ServerState × List Emission × Bool :=
  let st1 := updateSocket st sid (fun s =>
    { s with
      data := { s.data with roomId := some roomId, userId := some userId }
      rooms := if s.rooms.contains roomId then s.rooms else s.rooms ++ [roomId] })
  let st2 := { st1 with
    db := { st1.db with conns := createConnection now userId roomId st1.db.conns } }
  let others := (roomSockets st2 roomId).filter (fun s => s.sid ≠ sid)
  (st2,
   [⟨sid, .joinRoomSuccess "conectado correctamente" roomId⟩]
     ++ others.map (fun s => ⟨s.sid, .userJoined userId roomId⟩)
     ++ emitRoomUsersState st2 roomId,
   false)

/-- Effect of `socket.disconnect(true)`: the socket is torn out of every
adapter room and closed.  The cascaded `disconnect` event performs no
durable change for a socket whose `data.roomId` was never set, which is the
only situation in which `join_room` forcibly disconnects. -/
def disconnectSocket (st : ServerState) (sid : String) : ServerState :=
  updateSocket st sid (fun s => { s with connected := false, rooms := [] })

/-- The `join_room` handler of `index.ts`.  Returns the new state, the
emissions, and whether the handler forcibly closed the connection.
In order: the `!roomId` rejection, `userId = String(socket.data.userId ||
user.id)`, the room-existence check, the `isPrivate || private || false`
flag, then either a direct `handleJoin` (public) or the
`getRoomAccessForUser` gate with `socket.disconnect(true)` on denial. -/
def joinRoom (st : ServerState) (sid roomId : String) (now : Nat) :
    ServerState × List Emission × Bool :=
  match getSocket? st sid with
  | none => (st, [], false)
  | some sock =>
    match sock.data.user with
    | none => (st, [], false)
    | some user =>
      if ¬ jsTruthyStr (some roomId) then
        (st, [⟨sid, .joinRoomError "Invalid room ID"⟩], false)
      else
        let userId :=
          if jsTruthyStr sock.data.userId then sock.data.userId.getD "" else user.id
        match lookupRoom st.db roomId with
        | none => (st, [⟨sid, .joinRoomError "Room does not exist"⟩], false)
        | some room =>
          let isPriv := room.isPrivate = some true ∨ room.privateField = some true
          if ¬ isPriv then
            handleJoin st sid userId roomId now
          else
            if getRoomAccessForUser st.db userId roomId then
              handleJoin st sid userId roomId now
            else
              (disconnectSocket st sid,
               [⟨sid, .joinRoomError "usuario sin permisos para sala privada"⟩],
               true)

/-- The `message` handler of `index.ts`.  `msg` is `none` for a
non-string/undefined content; `persistOk` injects the outcome of the
external `createMessage` write (the only modelled infrastructure fault,
since a claim is about it).  Checks appear in source order: missing
`socket.data.userId` (silent), invalid visibility, invalid content, adapter
room missing (silent), socket not in the room, no connection record for the
string user id, then persistence followed by public/private fan-out. -/
def handleMessage (st : ServerState) (sid : String) (msg : Option String)
    (visibility : String) (target : List MsgTarget) (persistOk : Bool)
    (now : Nat) : ServerState × List Emission :=
  match getSocket? st sid with
  | none => (st, [])
  | some sock =>
    if ¬ jsTruthyStr sock.data.userId then (st, [])
    else
      let userId := sock.data.userId.getD ""
      if visibility ≠ "public" ∧ visibility ≠ "private" then
        (st, [⟨sid, .messageError "visibility inválida"⟩])
      else if msg = none ∨ msg = some "" then
        (st, [⟨sid, .messageError "mensaje inválido"⟩])
      else
        let room := match sock.data.roomId with
          | none => []
          | some r => roomSockets st r
        if room.isEmpty then (st, [])
        else
          let roomId := sock.data.roomId.getD ""
          if ¬ sock.rooms.contains roomId then
            (st, [⟨sid, .messageError "No estás en la sala"⟩])
          else if ((connsFor st.db roomId).filter
              (fun c => decide (c.userId = JsVal.str userId))).isEmpty then
            (st, [⟨sid, .messageError "el usuario no tiene conexión activa en la sala"⟩])
          else if ¬ persistOk then
            (st, (room.filter (fun s => s.sid ≠ sid)).map
              (fun s => ⟨s.sid, .messageError "error"⟩))
          else
            let content := msg.getD ""
            let st' := { st with db := { st.db with msgs := st.db.msgs ++
              [(roomId, ⟨userId, roomId, content, visibility, target, now⟩)] } }
            if visibility = "public" then
              (st',
               [⟨sid, .messageSuccess content userId roomId visibility⟩]
                 ++ (room.filter (fun s => s.sid ≠ sid)).map
                   (fun s => ⟨s.sid, .newSuccess content userId roomId visibility⟩))
            else
              (st',
               (room.filter (fun s => sendMessageTo target s.data.userId)).map
                 (fun s => ⟨s.sid, .messageSuccess content userId roomId visibility⟩))

/-- The `webrtc_offer` relay of `index.ts` (the `webrtc_answer` and
`webrtc_ice_candidate` handlers are verbatim copies up to the event name):
look up the adapter room, walk it until the first socket whose
`data.userId` equals `targetUserId`, emit the payload tagged with the
sender's user id to that one socket, and stop; a missing room or missing
target is a silent no-op. -/
def webrtcOffer (st : ServerState) (senderSid roomId targetUserId sdp : String) :
    List Emission :=
  let senderUid := (getSocket? st senderSid).bind (fun s => s.data.userId)
  match (roomSockets st roomId).find?
      (fun s => decide (s.data.userId = some targetUserId)) with
  | some s => [⟨s.sid, .webrtcOfferEv senderUid sdp⟩]
  | none => []

/-- The `end_room` handler of `index.ts`: if the caller's `data.roomId` is
set, emit `room_ended` to every member of that room (`io.to(roomId)`), then
make every member socket leave the room.  No admin/creator check is
performed. -/
def endRoom (st : ServerState) (sid : String) : ServerState × List Emission :=
  match getSocket? st sid with
  | none => (st, [])
  | some sock =>
    if ¬ jsTruthyStr sock.data.roomId then (st, [])
    else
      let roomId := sock.data.roomId.getD ""
      let members := roomSockets st roomId
      ({ st with sockets := st.sockets.map (fun s =>
          if s.rooms.contains roomId then
            { s with rooms := s.rooms.filter (fun r => r ≠ roomId) }
          else s) },
       members.map (fun s => ⟨s.sid, .roomEnded roomId⟩))

/-! ## Helper lemmas -/

/-- A socket returned by `getSocket?` carries the requested id. -/
theorem getSocket?_sid {st : ServerState} {sid : String} {sock : SocketSt}
    (h : getSocket? st sid = some sock) : sock.sid = sid := by
  have := List.find?_some h
  simpa using this

/-- A socket returned by `getSocket?` is in the registry. -/
theorem getSocket?_mem {st : ServerState} {sid : String} {sock : SocketSt}
    (h : getSocket? st sid = some sock) : sock ∈ st.sockets :=
  List.mem_of_find?_eq_some h

/-- Mapping a per-element update over a list does not change a filter when
the update fixes every element the filter keeps and never makes a dropped
element pass. -/
theorem filter_map_invar {α : Type} (l : List α) (g : α → α) (p : α → Bool)
    (h1 : ∀ a ∈ l, p a = true → g a = a)
    (h2 : ∀ a ∈ l, p a = false → p (g a) = false) :
    (l.map g).filter p = l.filter p := by
  induction l with
  | nil => rfl
  | cons a t ih =>
    have ht := ih (fun x hx => h1 x (List.mem_cons_of_mem a hx))
      (fun x hx => h2 x (List.mem_cons_of_mem a hx))
    by_cases hp : p a = true
    · have : g a = a := h1 a (List.mem_cons_self a t) hp
      simp [List.filter_cons, this, hp, ht]
    · have hpf : p a = false := by
        cases hq : p a
        · rfl
        · exact absurd hq hp
      have : p (g a) = false := h2 a (List.mem_cons_self a t) hpf
      simp [List.filter_cons, this, hpf, ht]

/-- Looking up the updated socket id after `updateSocket` yields the updated
socket, provided the update does not change socket ids. -/
theorem getSocket?_updateSocket (st : ServerState) (sid : String)
    (f : SocketSt → SocketSt) (hf : ∀ s, (f s).sid = s.sid) :
    getSocket? (updateSocket st sid f) sid = (getSocket? st sid).map f := by
  show (st.sockets.map fun s => if s.sid = sid then f s else s).find?
      (fun s => decide (s.sid = sid))
    = (st.sockets.find? fun s => decide (s.sid = sid)).map f
  induction st.sockets with
  | nil => rfl
  | cons a t ih =>
    by_cases ha : a.sid = sid
    · simp [List.find?_cons, ha, hf]
    · simp [List.find?_cons, ha, ih]

/-! ## C9: uniform authentication failure response -/

/-- C9: any two connection attempts whose (supplied, non-empty) credentials
fail both the backend-JWT strategy and the Firebase strategy receive the
same client-facing failure, namely the `Invalid authentication token`
error, no matter what the two strategies reported internally; a connection
supplying no credential (absent or empty token, which `!token` classifies
as missing before any strategy runs) is rejected with the
`Authentication token required` error. -/
theorem auth_uniform_failure_response
    (t1 t2 e1 e1f e2 e2f : String)
    (vl1 vl2 : String → Except String JWTUser)
    (vf1 vf2 : String → Except String FirebaseToken)
    (hne1 : t1 ≠ "") (hne2 : t2 ≠ "")
    (h1 : vl1 t1 = .error e1) (h1f : vf1 t1 = .error e1f)
    (h2 : vl2 t2 = .error e2) (h2f : vf2 t2 = .error e2f) :
    authMiddleware (some t1) vl1 vf1 = .error "Invalid authentication token"
    ∧ authMiddleware (some t1) vl1 vf1 = authMiddleware (some t2) vl2 vf2
    ∧ authMiddleware none vl1 vf1 = .error "Authentication token required"
    ∧ authMiddleware (some "") vl1 vf1 = .error "Authentication token required" := by
  have r1 : authMiddleware (some t1) vl1 vf1 = .error "Invalid authentication token" := by
    simp [authMiddleware, jsTruthyStr, hne1, h1, h1f]
  have r2 : authMiddleware (some t2) vl2 vf2 = .error "Invalid authentication token" := by
    simp [authMiddleware, jsTruthyStr, hne2, h2, h2f]
  refine ⟨r1, by rw [r1, r2], by simp [authMiddleware, jsTruthyStr], by
    simp [authMiddleware, jsTruthyStr]⟩

/-- Witness for C9 at concrete failing verifiers. -/
theorem auth_uniform_failure_response_witness :
    authMiddleware (some "tokA") (fun _ => .error "expired")
        (fun _ => .error "bad signature")
      = .error "Invalid authentication token"
    ∧ authMiddleware (some "tokA") (fun _ => .error "expired")
        (fun _ => .error "bad signature")
      = authMiddleware (some "tokB") (fun _ => .error "malformed")
        (fun _ => .error "revoked")
    ∧ authMiddleware none (fun _ => .error "expired")
        (fun _ => .error "bad signature")
      = .error "Authentication token required"
    ∧ authMiddleware (some "") (fun _ => .error "expired")
        (fun _ => .error "bad signature")
      = .error "Authentication token required" :=
  auth_uniform_failure_response "tokA" "tokB" "expired" "bad signature"
    "malformed" "revoked" _ _ _ _ (by decide) (by decide) rfl rfl rfl rfl

/-! ## C2: grant authorization rule -/

/-- Concrete counterexample state for C2: room `r` exists (its document is
present), user `A` is its creator, but the document carries a deletion
timestamp. -/
def c2db : DB :=
  ⟨[("r", ⟨some true, none, some "A", some [], some [], some (some 5)⟩)],
   [], [], []⟩

/-- C2 counterexample: on the existing room `r` whose `creatorId` is `A`,
`createRoomAccess` called by `A` reports failure and records no grant,
because the room's `deletedAt` field is not exactly `null` — refuting the
claim that on every existing room the call succeeds for the creator. -/
theorem createRoomAccess_claim_cex :
    lookupRoom c2db "r" ≠ none
    ∧ (lookupRoom c2db "r").map (fun r => r.creatorId) = some (some "A")
    ∧ (createRoomAccess 0 c2db "B" "r" "A").2.success = false
    ∧ (createRoomAccess 0 c2db "B" "r" "A").1 = c2db := by
  decide

/-- C2 (amended): on an existing room whose `deletedAt` field is exactly
`null` and whose `adminsId` field is present, `createRoomAccess` records
the grant and reports success if and only if the granting user is in the
room's `adminsId` list or equals the room's `creatorId`; otherwise it is
rejected with the not-authorized message and the store is unchanged. -/
theorem createRoomAccess_authorization
    (now : Nat) (db : DB) (userId roomId grantedBy : String)
    (room : RoomDoc) (admins : List String)
    (hroom : lookupRoom db roomId = some room)
    (hdel : room.deletedAt = some none)
    (hadm : room.adminsId = some admins) :
    ((createRoomAccess now db userId roomId grantedBy).2.success = true
      ↔ (grantedBy ∈ admins ∨ room.creatorId = some grantedBy))
    ∧ ((grantedBy ∈ admins ∨ room.creatorId = some grantedBy) →
        (createRoomAccess now db userId roomId grantedBy).1.access
          = db.access ++ [(roomId, ⟨jsNumber userId, jsNumber grantedBy, now⟩)])
    ∧ (¬ (grantedBy ∈ admins ∨ room.creatorId = some grantedBy) →
        (createRoomAccess now db userId roomId grantedBy).1 = db
        ∧ (createRoomAccess now db userId roomId grantedBy).2.message
            = "Solo los admins pueden dar acceso") := by
  by_cases hmem : grantedBy ∈ admins
  · simp [createRoomAccess, hroom, hdel, hadm, hmem]
  · by_cases hcr : room.creatorId = some grantedBy
    · simp [createRoomAccess, hroom, hdel, hadm, hmem, hcr]
    · simp [createRoomAccess, hroom, hdel, hadm, hmem, hcr]

/-- Witness for C2's amended theorem: the creator of a live room grants
access successfully and the grant is appended. -/
theorem createRoomAccess_authorization_witness :
    lookupRoom (⟨[("r", ⟨some true, none, some "A", some [], some [], some none⟩)],
        [], [], []⟩ : DB) "r"
      = some ⟨some true, none, some "A", some [], some [], some none⟩
    ∧ ((createRoomAccess 7
        (⟨[("r", ⟨some true, none, some "A", some [], some [], some none⟩)],
          [], [], []⟩ : DB) "B" "r" "A").2.success = true
      ↔ ("A" ∈ ([] : List String) ∨
          (⟨some true, none, some "A", some [], some [], some none⟩ : RoomDoc).creatorId
            = some "A")) := by
  refine ⟨by decide, ?_⟩
  exact (createRoomAccess_authorization 7
    (⟨[("r", ⟨some true, none, some "A", some [], some [], some none⟩)], [], [], []⟩)
    "B" "r" "A" ⟨some true, none, some "A", some [], some [], some none⟩ []
    (by decide) rfl rfl).1

/-! ## C6: invalid-room join is rejected but not connection-fatal -/

/-- Concrete state for the C6 counterexample: one authenticated socket,
no rooms in the store. -/
def c6st : ServerState :=
  ⟨[⟨"s1", ⟨some ⟨"U1", "u1@x"⟩, some "U1", none⟩, [], true⟩], ⟨[], [], [], []⟩⟩

/-- C6 counterexample: a join with an empty room id is rejected with the
invalid-room error, yet the connection is NOT closed (the handler returns
without `socket.disconnect`), refuting the claim that such joins are
connection-fatal like `AccessDenied`. -/
theorem joinRoom_invalid_room_claim_cex :
    (joinRoom c6st "s1" "" 0).2.1 = [⟨"s1", .joinRoomError "Invalid room ID"⟩]
    ∧ (joinRoom c6st "s1" "" 0).2.2 = false
    ∧ (joinRoom c6st "s1" "" 0).1 = c6st := by
  decide

/-- C6 (amended): a join whose room id is empty or names no existing room
document is rejected with the corresponding invalid-room error, creates no
presence or connection state (the whole server state is unchanged), but the
connection is left open — unlike `AccessDenied`, these rejections are not
connection-fatal. -/
theorem joinRoom_invalid_room_rejected_open
    (st : ServerState) (sid roomId : String) (now : Nat)
    (sock : SocketSt) (user : JWTUser)
    (hs : getSocket? st sid = some sock)
    (hu : sock.data.user = some user)
    (hbad : roomId = "" ∨ lookupRoom st.db roomId = none) :
    (joinRoom st sid roomId now).1 = st
    ∧ ((joinRoom st sid roomId now).2.1
          = [⟨sid, .joinRoomError "Invalid room ID"⟩]
        ∨ (joinRoom st sid roomId now).2.1
          = [⟨sid, .joinRoomError "Room does not exist"⟩])
    ∧ (joinRoom st sid roomId now).2.2 = false := by
  rcases hbad with h | h
  · subst h
    simp [joinRoom, hs, hu, jsTruthyStr]
  · by_cases he : roomId = ""
    · subst he
      simp [joinRoom, hs, hu, jsTruthyStr]
    · simp [joinRoom, hs, hu, jsTruthyStr, he, h]

/-- Witness for C6's amended theorem at a nonexistent room id. -/
theorem joinRoom_invalid_room_rejected_open_witness :
    (joinRoom c6st "s1" "ghost" 3).1 = c6st
    ∧ ((joinRoom c6st "s1" "ghost" 3).2.1
          = [⟨"s1", .joinRoomError "Invalid room ID"⟩]
        ∨ (joinRoom c6st "s1" "ghost" 3).2.1
          = [⟨"s1", .joinRoomError "Room does not exist"⟩])
    ∧ (joinRoom c6st "s1" "ghost" 3).2.2 = false :=
  joinRoom_invalid_room_rejected_open c6st "s1" "ghost" 3
    ⟨"s1", ⟨some ⟨"U1", "u1@x"⟩, some "U1", none⟩, [], true⟩
    ⟨"U1", "u1@x"⟩ (by decide) rfl (Or.inr (by decide))

/-! ## C8: signaling relay targets at most one session -/

/-- C8: the `webrtc_offer` relay (and its `webrtc_answer` /
`webrtc_ice_candidate` twins) emits to at most one session; every emission
goes to a current member of the room whose `userId` equals `targetUserId`
and carries the `sdp` payload verbatim tagged with the sender's user id
(so it is never broadcast to other members); when some member matches,
exactly one emission happens, and when no member matches, the relay is a
silent no-op with no emission and no error. -/
theorem webrtc_relay_single_recipient
    (st : ServerState) (senderSid roomId targetUserId sdp : String) :
    (webrtcOffer st senderSid roomId targetUserId sdp).length ≤ 1
    ∧ (∀ e ∈ webrtcOffer st senderSid roomId targetUserId sdp,
        ∃ s ∈ roomSockets st roomId, s.data.userId = some targetUserId
          ∧ e = ⟨s.sid, .webrtcOfferEv
              ((getSocket? st senderSid).bind (fun x => x.data.userId)) sdp⟩)
    ∧ ((∃ s ∈ roomSockets st roomId, s.data.userId = some targetUserId) →
        (webrtcOffer st senderSid roomId targetUserId sdp).length = 1)
    ∧ ((∀ s ∈ roomSockets st roomId, s.data.userId ≠ some targetUserId) →
        webrtcOffer st senderSid roomId targetUserId sdp = []) := by
  cases hf : (roomSockets st roomId).find?
      (fun s => decide (s.data.userId = some targetUserId)) with
  | none =>
    refine ⟨?_, ?_, ?_, ?_⟩
    · simp [webrtcOffer, hf]
    · simp [webrtcOffer, hf]
    · rintro ⟨s, hsmem, hsid⟩
      rw [List.find?_eq_none] at hf
      exact absurd (by simpa using hsid) (by simpa using hf s hsmem)
    · intro _
      simp [webrtcOffer, hf]
  | some s =>
    have hmem : s ∈ roomSockets st roomId := List.mem_of_find?_eq_some hf
    have hsid : s.data.userId = some targetUserId := by
      have := List.find?_some hf
      simpa using this
    refine ⟨?_, ?_, ?_, ?_⟩
    · simp [webrtcOffer, hf]
    · intro e he
      simp [webrtcOffer, hf] at he
      exact ⟨s, hmem, hsid, he⟩
    · intro _
      simp [webrtcOffer, hf]
    · intro hnone
      exact absurd hsid (hnone s hmem)

/-- Witness for C8 at a concrete two-member room. -/
theorem webrtc_relay_single_recipient_witness :
    (webrtcOffer
      (⟨[⟨"s1", ⟨some ⟨"U1", "u1@x"⟩, some "U1", some "r"⟩, ["r"], true⟩,
         ⟨"s2", ⟨some ⟨"U2", "u2@x"⟩, some "U2", some "r"⟩, ["r"], true⟩],
        ⟨[], [], [], []⟩⟩ : ServerState) "s1" "r" "U2" "sdp-blob").length ≤ 1
    ∧ ((∃ s ∈ roomSockets
          (⟨[⟨"s1", ⟨some ⟨"U1", "u1@x"⟩, some "U1", some "r"⟩, ["r"], true⟩,
             ⟨"s2", ⟨some ⟨"U2", "u2@x"⟩, some "U2", some "r"⟩, ["r"], true⟩],
            ⟨[], [], [], []⟩⟩ : ServerState) "r", s.data.userId = some "U2") →
        (webrtcOffer
          (⟨[⟨"s1", ⟨some ⟨"U1", "u1@x"⟩, some "U1", some "r"⟩, ["r"], true⟩,
             ⟨"s2", ⟨some ⟨"U2", "u2@x"⟩, some "U2", some "r"⟩, ["r"], true⟩],
            ⟨[], [], [], []⟩⟩ : ServerState) "s1" "r" "U2" "sdp-blob").length = 1) := by
  refine ⟨?_, ?_⟩
  · exact (webrtc_relay_single_recipient _ "s1" "r" "U2" "sdp-blob").1
  · exact (webrtc_relay_single_recipient _ "s1" "r" "U2" "sdp-blob").2.2.1

/-! ## C10: end_room requires no authorization -/

/-- C10: for any session whose `data.roomId` is set (to a non-empty room
id), `end_room` notifies every current member of that room with
`room_ended` and removes every member socket from the room; the theorem
carries no hypothesis whatsoever about the requester being an admin or the
room's creator — the handler performs no such check, so any room member can
end the room for everyone.  The durable store is untouched. -/
theorem end_room_any_member
    (st : ServerState) (sid : String) (sock : SocketSt) (roomId : String)
    (hs : getSocket? st sid = some sock)
    (hr : sock.data.roomId = some roomId)
    (hne : roomId ≠ "") :
    (endRoom st sid).2
      = (roomSockets st roomId).map (fun s => ⟨s.sid, .roomEnded roomId⟩)
    ∧ (∀ s ∈ (endRoom st sid).1.sockets, roomId ∉ s.rooms)
    ∧ (endRoom st sid).1.db = st.db := by
  have htr2 : jsTruthyStr (some roomId) = true := by
    simp [jsTruthyStr, hne]
  have hE : endRoom st sid
      = ({ st with sockets := st.sockets.map (fun s =>
            if s.rooms.contains roomId then
              { s with rooms := s.rooms.filter (fun r => r ≠ roomId) }
            else s) },
         (roomSockets st roomId).map (fun s => ⟨s.sid, .roomEnded roomId⟩)) := by
    simp [endRoom, hs, hr, htr2]
  refine ⟨?_, ?_, ?_⟩
  · rw [hE]
  · rw [hE]
    intro s hsmem
    simp only [List.mem_map] at hsmem
    obtain ⟨a, _, ha⟩ := hsmem
    by_cases hc : a.rooms.contains roomId = true
    · rw [if_pos hc] at ha
      subst ha
      simp
    · rw [if_neg hc] at ha
      subst ha
      simpa using hc
  · rw [hE]

/-- Witness for C10: a non-admin, non-creator member ends the room. -/
theorem end_room_any_member_witness :
    (endRoom
      (⟨[⟨"s1", ⟨some ⟨"U1", "u1@x"⟩, some "U1", some "r"⟩, ["r"], true⟩],
        ⟨[("r", ⟨some false, none, some "BOSS", some ["BOSS"], some ["BOSS"],
            some none⟩)], [], [], []⟩⟩ : ServerState) "s1").2
      = (roomSockets
          (⟨[⟨"s1", ⟨some ⟨"U1", "u1@x"⟩, some "U1", some "r"⟩, ["r"], true⟩],
            ⟨[("r", ⟨some false, none, some "BOSS", some ["BOSS"], some ["BOSS"],
                some none⟩)], [], [], []⟩⟩ : ServerState) "r").map
          (fun s => ⟨s.sid, .roomEnded "r"⟩)
    ∧ (∀ s ∈ (endRoom
          (⟨[⟨"s1", ⟨some ⟨"U1", "u1@x"⟩, some "U1", some "r"⟩, ["r"], true⟩],
            ⟨[("r", ⟨some false, none, some "BOSS", some ["BOSS"], some ["BOSS"],
                some none⟩)], [], [], []⟩⟩ : ServerState) "s1").1.sockets,
        "r" ∉ s.rooms) := by
  refine ⟨?_, ?_⟩
  · exact (end_room_any_member _ "s1"
      ⟨"s1", ⟨some ⟨"U1", "u1@x"⟩, some "U1", some "r"⟩, ["r"], true⟩ "r"
      (by decide) rfl (by decide)).1
  · exact (end_room_any_member _ "s1"
      ⟨"s1", ⟨some ⟨"U1", "u1@x"⟩, some "U1", some "r"⟩, ["r"], true⟩ "r"
      (by decide) rfl (by decide)).2.1

/-! ## C4: message validation order -/

/-- Concrete state for the C4 counterexample: an authenticated socket that
is in no room (`data.roomId` unset, member of no adapter room). -/
def c4st : ServerState :=
  ⟨[⟨"s1", ⟨some ⟨"U1", "u1@x"⟩, some "U1", none⟩, [], true⟩], ⟨[], [], [], []⟩⟩

/-- C4 counterexample: the session is not `InRoom` (its `roomId` is unset),
yet a message with an invalid visibility is answered with the
`visibility inválida` error instead of being silently dropped — so the
in-room check is not the first check and its failure is not always silent,
refuting the claimed validation order. -/
theorem message_validation_claim_cex :
    (getSocket? c4st "s1").map (fun s => s.data.roomId) = some none
    ∧ (handleMessage c4st "s1" (some "hello") "direct" [] true 0).2
        = [⟨"s1", .messageError "visibility inválida"⟩] := by
  decide

/-- C4 (amended): the `message` handler applies its checks in this order,
first failing check winning: (1) `socket.data.userId` present and
non-empty, else silent drop; (2) visibility exactly `public` or `private`,
else the invalid-visibility error; (3) content a non-empty string, else the
invalid-message error; (4) the adapter has a non-empty room for the
session's `roomId`, else silent drop; (5) the sender socket is a member of
that room, else a not-in-room error (with feedback); (6) some connection
record for the (string) user id exists in the room, else the
no-active-connection error.  The in-room checks thus come after the
visibility and content checks, and only the missing-user-id and
missing-room failures are silent. -/
theorem message_validation_order
    (st : ServerState) (sid : String) (sock : SocketSt)
    (msg : Option String) (visibility : String) (target : List MsgTarget)
    (persistOk : Bool) (now : Nat)
    (hs : getSocket? st sid = some sock) :
    (jsTruthyStr sock.data.userId = false →
      handleMessage st sid msg visibility target persistOk now = (st, []))
    ∧ (jsTruthyStr sock.data.userId = true →
       visibility ≠ "public" → visibility ≠ "private" →
      handleMessage st sid msg visibility target persistOk now
        = (st, [⟨sid, .messageError "visibility inválida"⟩]))
    ∧ (jsTruthyStr sock.data.userId = true →
       (visibility = "public" ∨ visibility = "private") →
       (msg = none ∨ msg = some "") →
      handleMessage st sid msg visibility target persistOk now
        = (st, [⟨sid, .messageError "mensaje inválido"⟩]))
    ∧ (jsTruthyStr sock.data.userId = true →
       (visibility = "public" ∨ visibility = "private") →
       ¬ (msg = none ∨ msg = some "") →
       (match sock.data.roomId with
        | none => ([] : List SocketSt)
        | some r => roomSockets st r) = [] →
      handleMessage st sid msg visibility target persistOk now = (st, []))
    ∧ (jsTruthyStr sock.data.userId = true →
       (visibility = "public" ∨ visibility = "private") →
       ¬ (msg = none ∨ msg = some "") →
       (match sock.data.roomId with
        | none => ([] : List SocketSt)
        | some r => roomSockets st r) ≠ [] →
       sock.data.roomId.getD "" ∉ sock.rooms →
      handleMessage st sid msg visibility target persistOk now
        = (st, [⟨sid, .messageError "No estás en la sala"⟩]))
    ∧ (jsTruthyStr sock.data.userId = true →
       (visibility = "public" ∨ visibility = "private") →
       ¬ (msg = none ∨ msg = some "") →
       (match sock.data.roomId with
        | none => ([] : List SocketSt)
        | some r => roomSockets st r) ≠ [] →
       sock.data.roomId.getD "" ∈ sock.rooms →
       (∀ c ∈ connsFor st.db (sock.data.roomId.getD ""),
         c.userId ≠ JsVal.str (sock.data.userId.getD "")) →
      handleMessage st sid msg visibility target persistOk now
        = (st, [⟨sid, .messageError
            "el usuario no tiene conexión activa en la sala"⟩])) := by
  refine ⟨?_, ?_, ?_, ?_, ?_, ?_⟩
  · intro h
    simp [handleMessage, hs, h]
  · intro h hv1 hv2
    simp [handleMessage, hs, h, hv1, hv2]
  · intro h hvalid hbad
    have hvc : ¬ (visibility ≠ "public" ∧ visibility ≠ "private") := by
      rcases hvalid with hv | hv <;> simp [hv]
    simp [handleMessage, hs, h, hvc, hbad]
  · intro h hvalid hgood hroomnil
    have hvc : ¬ (visibility ≠ "public" ∧ visibility ≠ "private") := by
      rcases hvalid with hv | hv <;> simp [hv]
    simp [handleMessage, hs, h, hvc, hgood, hroomnil]
  · intro h hvalid hgood hroomne hnotin
    have hvc : ¬ (visibility ≠ "public" ∧ visibility ≠ "private") := by
      rcases hvalid with hv | hv <;> simp [hv]
    simp [handleMessage, hs, h, hvc, hgood, hroomne, hnotin]
  · intro h hvalid hgood hroomne hisin hnoconn
    have hvc : ¬ (visibility ≠ "public" ∧ visibility ≠ "private") := by
      rcases hvalid with hv | hv <;> simp [hv]
    simp only [handleMessage, hs, h, hvc, hgood, hroomne, hisin]
    simp [hroomne, hisin]
    intro x hx hx2
    exact absurd hx2 (hnoconn x hx)

/-- Witness for C4's amended theorem: a socket with no user id is silently
dropped, and the same socket with a bad visibility gets the visibility
error once its user id is set. -/
theorem message_validation_order_witness :
    handleMessage
      (⟨[⟨"s9", ⟨some ⟨"U9", "u9@x"⟩, none, none⟩, [], true⟩],
        ⟨[], [], [], []⟩⟩ : ServerState) "s9" (some "hola") "public" [] true 0
      = ((⟨[⟨"s9", ⟨some ⟨"U9", "u9@x"⟩, none, none⟩, [], true⟩],
          ⟨[], [], [], []⟩⟩ : ServerState), []) :=
  (message_validation_order
    (⟨[⟨"s9", ⟨some ⟨"U9", "u9@x"⟩, none, none⟩, [], true⟩], ⟨[], [], [], []⟩⟩)
    "s9" ⟨"s9", ⟨some ⟨"U9", "u9@x"⟩, none, none⟩, [], true⟩
    (some "hola") "public" [] true 0 (by decide)).1 rfl

/-! ## C5: persistence failure reporting -/

/-- Concrete state for the C5 counterexample: sender `s1` and one other
member `s2` are in room `r`, and `s1` has a (string-keyed) connection
record so validation passes. -/
def c5st : ServerState :=
  ⟨[⟨"s1", ⟨some ⟨"U1", "u1@x"⟩, some "U1", some "r"⟩, ["r"], true⟩,
    ⟨"s2", ⟨some ⟨"U2", "u2@x"⟩, some "U2", some "r"⟩, ["r"], true⟩],
   ⟨[("r", ⟨some false, none, some "A", some [], some [], some none⟩)],
    [], [("r", ⟨JsVal.str "U1", 1, none⟩)], []⟩⟩

/-- C5 counterexample: when persistence of a valid public message fails,
the sender `s1` — a current member of the room — receives nothing: the
persistence error goes only to the other member `s2` (`socket.to(roomId)`
excludes the emitting socket), refuting the claim that the error reaches
every current room member including the sender. -/
theorem persistence_error_claim_cex :
    (roomSockets c5st "r").map (fun s => s.sid) = ["s1", "s2"]
    ∧ (handleMessage c5st "s1" (some "hola") "public" [] false 0).2
        = [⟨"s2", .messageError "error"⟩] := by
  decide

/-- C5 (amended): for a message that passes validation, if persistence
fails then nothing is stored and no session receives the message — the
whole state is unchanged and every emission is the persistence error — and
the error is reported to every current room member EXCEPT the sender
(`socket.to(roomId)` never includes the emitting socket). -/
theorem persistence_failure_no_delivery
    (st : ServerState) (sid : String) (sock : SocketSt) (u r m : String)
    (visibility : String) (target : List MsgTarget) (now : Nat)
    (hs : getSocket? st sid = some sock)
    (huid : sock.data.userId = some u) (hune : u ≠ "")
    (hvis : visibility = "public" ∨ visibility = "private")
    (hm : m ≠ "")
    (hroom : sock.data.roomId = some r)
    (hconn : sock.connected = true)
    (hin : sock.rooms.contains r = true)
    (hrec : (connsFor st.db r).filter (fun c => decide (c.userId = JsVal.str u)) ≠ []) :
    (handleMessage st sid (some m) visibility target false now).1 = st
    ∧ (handleMessage st sid (some m) visibility target false now).2
        = ((roomSockets st r).filter (fun s => s.sid ≠ sid)).map
            (fun s => ⟨s.sid, .messageError "error"⟩)
    ∧ (∀ e ∈ (handleMessage st sid (some m) visibility target false now).2,
        e.target ≠ sid ∧ e.payload = .messageError "error") := by
  have hin2 : r ∈ sock.rooms := by simpa using hin
  have hmem : sock ∈ roomSockets st r :=
    List.mem_filter.mpr ⟨getSocket?_mem hs, by simp [hconn, hin2]⟩
  have hrne : roomSockets st r ≠ [] := by
    intro hnil
    rw [hnil] at hmem
    exact absurd hmem (List.not_mem_nil sock)
  have hvc : ¬ (visibility ≠ "public" ∧ visibility ≠ "private") := by
    rcases hvis with hv | hv <;> simp [hv]
  have hE : handleMessage st sid (some m) visibility target false now
      = (st, ((roomSockets st r).filter (fun s => s.sid ≠ sid)).map
          (fun s => ⟨s.sid, .messageError "error"⟩)) := by
    simp [handleMessage, hs, huid, jsTruthyStr, hune, hm, hvc, hroom, hrne,
      hin2, hrec]
  refine ⟨by rw [hE], by rw [hE], ?_⟩
  intro e he
  rw [hE] at he
  simp only [List.mem_map] at he
  obtain ⟨a, hafil, rfl⟩ := he
  have := (List.mem_filter.mp hafil).2
  exact ⟨by simpa using this, rfl⟩

/-- Witness for C5's amended theorem at the concrete two-member room. -/
theorem persistence_failure_no_delivery_witness :
    (handleMessage c5st "s1" (some "hola") "public" [] false 0).1 = c5st
    ∧ (handleMessage c5st "s1" (some "hola") "public" [] false 0).2
        = ((roomSockets c5st "r").filter (fun s => s.sid ≠ "s1")).map
            (fun s => ⟨s.sid, .messageError "error"⟩) := by
  have h := persistence_failure_no_delivery c5st "s1"
    ⟨"s1", ⟨some ⟨"U1", "u1@x"⟩, some "U1", some "r"⟩, ["r"], true⟩
    "U1" "r" "hola" "public" [] 0 (by decide) rfl (by decide)
    (Or.inl rfl) (by decide) rfl rfl (by decide) (by decide)
  exact ⟨h.1, h.2.1⟩

/-! ## C1: private-room join without a grant -/

/-- C1: an authenticated session joining a private room for which no access
grant exists for its user id receives exactly the access-denied
`join_room_error`, its connection is forcibly closed, the durable store
(connection records included) is untouched, the room's presence membership
is unchanged, and the session's `data.roomId` stays unset — it never
reaches the `InRoom` state. -/
theorem joinRoom_private_denied_no_grant
    (st : ServerState) (sid roomId : String) (now : Nat)
    (sock : SocketSt) (user : JWTUser) (room : RoomDoc) (u : String)
    (hs : getSocket? st sid = some sock)
    (huser : sock.data.user = some user)
    (huid : sock.data.userId = some u) (hune : u ≠ "")
    (hrne : roomId ≠ "")
    (hlook : lookupRoom st.db roomId = some room)
    (hpriv : room.isPrivate = some true ∨ room.privateField = some true)
    (hnog : ∀ g ∈ grantsFor st.db roomId, g.userId ≠ jsNumber u)
    (hroomnone : sock.data.roomId = none)
    (hnotmem : ∀ s ∈ st.sockets, s.sid = sid → s.rooms.contains roomId = false) :
    (joinRoom st sid roomId now).2.1
      = [⟨sid, .joinRoomError "usuario sin permisos para sala privada"⟩]
    ∧ (joinRoom st sid roomId now).2.2 = true
    ∧ (joinRoom st sid roomId now).1.db = st.db
    ∧ roomSockets (joinRoom st sid roomId now).1 roomId = roomSockets st roomId
    ∧ (getSocket? (joinRoom st sid roomId now).1 sid).map
        (fun s => s.data.roomId) = some none := by
  have hacc : getRoomAccessForUser st.db u roomId = false := by
    simp only [getRoomAccessForUser, List.any_eq_false]
    intro g hg
    simpa using hnog g hg
  have hE : joinRoom st sid roomId now
      = (disconnectSocket st sid,
         [⟨sid, .joinRoomError "usuario sin permisos para sala privada"⟩],
         true) := by
    rcases hpriv with hp | hp <;>
      simp [joinRoom, hs, huser, jsTruthyStr, hrne, huid, hune, hlook, hp, hacc]
  refine ⟨by rw [hE], by rw [hE], by rw [hE]; rfl, ?_, ?_⟩
  · rw [hE]
    show roomSockets (updateSocket st sid _) roomId = roomSockets st roomId
    refine filter_map_invar st.sockets _ _ ?_ ?_
    · intro a ha hpa
      by_cases hsid : a.sid = sid
      · have hcf := hnotmem a ha hsid
        rw [Bool.and_eq_true] at hpa
        have h2 : roomId ∈ a.rooms := by simpa using hpa.2
        exact absurd h2 (by simpa using hcf)
      · simp [hsid]
    · intro a ha hpa
      by_cases hsid : a.sid = sid
      · simp [hsid]
      · simpa [hsid] using hpa
  · rw [hE]
    show (getSocket? (disconnectSocket st sid) sid).map (fun s => s.data.roomId)
        = some none
    simp only [disconnectSocket]
    rw [getSocket?_updateSocket st sid
      (fun s => { s with connected := false, rooms := [] }) (fun s => rfl), hs]
    simp [hroomnone]

/-- Witness for C1: one authenticated socket tries to join a grant-less
private room. -/
theorem joinRoom_private_denied_no_grant_witness :
    (joinRoom
      (⟨[⟨"s1", ⟨some ⟨"U1", "u1@x"⟩, some "U1", none⟩, [], true⟩],
        ⟨[("p", ⟨some true, none, some "A", some [], some [], some none⟩)],
         [], [], []⟩⟩ : ServerState) "s1" "p" 4).2.1
      = [⟨"s1", .joinRoomError "usuario sin permisos para sala privada"⟩]
    ∧ (joinRoom
      (⟨[⟨"s1", ⟨some ⟨"U1", "u1@x"⟩, some "U1", none⟩, [], true⟩],
        ⟨[("p", ⟨some true, none, some "A", some [], some [], some none⟩)],
         [], [], []⟩⟩ : ServerState) "s1" "p" 4).2.2 = true := by
  have h := joinRoom_private_denied_no_grant
    (⟨[⟨"s1", ⟨some ⟨"U1", "u1@x"⟩, some "U1", none⟩, [], true⟩],
      ⟨[("p", ⟨some true, none, some "A", some [], some [], some none⟩)],
       [], [], []⟩⟩ : ServerState) "s1" "p" 4
    ⟨"s1", ⟨some ⟨"U1", "u1@x"⟩, some "U1", none⟩, [], true⟩
    ⟨"U1", "u1@x"⟩ ⟨some true, none, some "A", some [], some [], some none⟩ "U1"
    (by decide) rfl rfl (by decide) (by decide) (by decide)
    (Or.inl rfl) (by decide) rfl (by decide)
  exact ⟨h.1, h.2.1⟩

/-! ## C3: private message targeting -/

/-- C3: an accepted private message with a non-empty target list is
delivered exactly to the sessions currently in the room whose `userId` is
string-equal to some entry of the target list: the emission list is the
image of the matching members, a member receives `message_success` iff some
target entry equals its user id, and the sender receives it iff the
sender's own user id appears in the target list. -/
theorem private_message_exact_targets
    (st : ServerState) (sid : String) (sock : SocketSt) (u r m : String)
    (target : List MsgTarget) (now : Nat)
    (hs : getSocket? st sid = some sock)
    (huid : sock.data.userId = some u) (hune : u ≠ "")
    (hm : m ≠ "")
    (hroom : sock.data.roomId = some r)
    (hconn : sock.connected = true)
    (hin : sock.rooms.contains r = true)
    (hrec : (connsFor st.db r).filter (fun c => decide (c.userId = JsVal.str u)) ≠ [])
    (htne : target ≠ [])
    (huniq : ∀ a ∈ roomSockets st r, ∀ b ∈ roomSockets st r, a.sid = b.sid → a = b) :
    (handleMessage st sid (some m) "private" target true now).2
      = ((roomSockets st r).filter
          (fun s => sendMessageTo target s.data.userId)).map
          (fun s => ⟨s.sid, .messageSuccess m u r "private"⟩)
    ∧ (∀ s ∈ roomSockets st r,
        ((⟨s.sid, .messageSuccess m u r "private"⟩ : Emission)
            ∈ (handleMessage st sid (some m) "private" target true now).2
          ↔ ∃ te ∈ target, some te.userId = s.data.userId))
    ∧ ((⟨sid, .messageSuccess m u r "private"⟩ : Emission)
          ∈ (handleMessage st sid (some m) "private" target true now).2
        ↔ ∃ te ∈ target, te.userId = u) := by
  have hin2 : r ∈ sock.rooms := by simpa using hin
  have hmem : sock ∈ roomSockets st r :=
    List.mem_filter.mpr ⟨getSocket?_mem hs, by simp [hconn, hin2]⟩
  have hrne : roomSockets st r ≠ [] := by
    intro hnil
    rw [hnil] at hmem
    exact absurd hmem (List.not_mem_nil sock)
  have hE : (handleMessage st sid (some m) "private" target true now).2
      = ((roomSockets st r).filter
          (fun s => sendMessageTo target s.data.userId)).map
          (fun s => ⟨s.sid, .messageSuccess m u r "private"⟩) := by
    simp [handleMessage, hs, huid, jsTruthyStr, hune, hm, hroom, hrne, hin2, hrec]
  have hiff : ∀ s ∈ roomSockets st r,
      ((⟨s.sid, .messageSuccess m u r "private"⟩ : Emission)
          ∈ (handleMessage st sid (some m) "private" target true now).2
        ↔ ∃ te ∈ target, some te.userId = s.data.userId) := by
    intro s hsmem
    rw [hE]
    constructor
    · intro hin3
      simp only [List.mem_map] at hin3
      obtain ⟨a, hafil, heq⟩ := hin3
      have hasid : a.sid = s.sid := by
        have := congrArg Emission.target heq
        simpa using this
      have hamem : a ∈ roomSockets st r := (List.mem_filter.mp hafil).1
      have hasend : sendMessageTo target a.data.userId = true := by
        have := (List.mem_filter.mp hafil).2
        simpa using this
      have : a = s := huniq a hamem s hsmem hasid
      subst this
      simp only [sendMessageTo, List.any_eq_true] at hasend
      obtain ⟨te, hte, hte2⟩ := hasend
      exact ⟨te, hte, by simpa using hte2⟩
    · intro hex
      obtain ⟨te, hte, hte2⟩ := hex
      have hsend : sendMessageTo target s.data.userId = true := by
        simp only [sendMessageTo, List.any_eq_true]
        exact ⟨te, hte, by simpa using hte2⟩
      exact List.mem_map.mpr
        ⟨s, List.mem_filter.mpr ⟨hsmem, by simpa using hsend⟩, rfl⟩
  refine ⟨hE, hiff, ?_⟩
  have hsid : sock.sid = sid := getSocket?_sid hs
  have := hiff sock hmem
  rw [hsid, huid] at this
  rw [this]
  constructor
  · rintro ⟨te, hte, hte2⟩
    exact ⟨te, hte, by simpa using hte2⟩
  · rintro ⟨te, hte, hte2⟩
    exact ⟨te, hte, by simp [hte2]⟩

/-- Witness for C3: `U1` privately messages `U2` in a two-member room. -/
theorem private_message_exact_targets_witness :
    (handleMessage c5st "s1" (some "psst") "private" [⟨"U2"⟩] true 2).2
      = ((roomSockets c5st "r").filter
          (fun s => sendMessageTo [⟨"U2"⟩] s.data.userId)).map
          (fun s => ⟨s.sid, .messageSuccess "psst" "U1" "r" "private"⟩)
    ∧ ((⟨"s1", .messageSuccess "psst" "U1" "r" "private"⟩ : Emission)
          ∈ (handleMessage c5st "s1" (some "psst") "private" [⟨"U2"⟩] true 2).2
        ↔ ∃ te ∈ [(⟨"U2"⟩ : MsgTarget)], te.userId = "U1") := by
  have h := private_message_exact_targets c5st "s1"
    ⟨"s1", ⟨some ⟨"U1", "u1@x"⟩, some "U1", some "r"⟩, ["r"], true⟩
    "U1" "r" "psst" [⟨"U2"⟩] 2 (by decide) rfl (by decide) (by decide)
    rfl rfl (by decide) (by decide) (by decide)
    (by decide)
  exact ⟨h.1, h.2.2⟩

/-! ## C7: idempotent join, active-record uniqueness -/

/-- Refreshing the first matching record only touches `joinedAt` /
`leftAt`, so the query view at the pair's own key is a `modifyHead`. -/
theorem activeFor_refreshConn_same (now : Nat) (u r : String)
    (cs : List (String × ConnRec)) :
    activeFor (refreshConn now u r cs) u r
      = (activeFor cs u r).modifyHead
          (fun c => { c with joinedAt := now, leftAt := none }) := by
  induction cs with
  | nil => rfl
  | cons p t ih =>
    by_cases hp : connActiveMatch u r p = true
    · have hp' : (p.1 = r ∧ p.2.userId = JsVal.num (jsNumber u))
          ∧ p.2.leftAt = none := by
        simpa only [connActiveMatch, Bool.and_eq_true, decide_eq_true_eq] using hp
      have hmatch : connActiveMatch u r
          (p.1, { p.2 with joinedAt := now, leftAt := none }) = true := by
        simp [connActiveMatch, hp'.1.1, hp'.1.2]
      simp [refreshConn, hp, activeFor, List.filter_cons, hmatch]
    · have hp2 : connActiveMatch u r p = false := by
        cases hq : connActiveMatch u r p
        · rfl
        · exact absurd hq hp
      simp only [refreshConn, hp2, Bool.false_eq_true, if_false]
      simpa [activeFor, List.filter_cons, hp2] using ih

/-- Refreshing a record never changes how many records any key's query
sees: the refreshed record matches exactly the same queries as before. -/
theorem activeFor_refreshConn_length (now : Nat) (u r x y : String)
    (cs : List (String × ConnRec)) :
    (activeFor (refreshConn now u r cs) x y).length
      = (activeFor cs x y).length := by
  induction cs with
  | nil => rfl
  | cons p t ih =>
    by_cases hp : connActiveMatch u r p = true
    · have hp' : (p.1 = r ∧ p.2.userId = JsVal.num (jsNumber u))
          ∧ p.2.leftAt = none := by
        simpa only [connActiveMatch, Bool.and_eq_true, decide_eq_true_eq] using hp
      have hsame : connActiveMatch x y
            (p.1, { p.2 with joinedAt := now, leftAt := none })
          = connActiveMatch x y p := by
        simp [connActiveMatch, hp'.2]
      simp only [refreshConn, hp, if_true]
      by_cases hq : connActiveMatch x y p = true
      · simp [activeFor, List.filter_cons, hsame, hq]
      · have hq2 : connActiveMatch x y p = false := by
          cases hqq : connActiveMatch x y p
          · rfl
          · exact absurd hqq hq
        simp [activeFor, List.filter_cons, hsame, hq2]
    · have hp2 : connActiveMatch u r p = false := by
        cases hq : connActiveMatch u r p
        · rfl
        · exact absurd hq hp
      simp only [refreshConn, hp2, Bool.false_eq_true, if_false]
      by_cases hq : connActiveMatch x y p = true
      · simpa [activeFor, List.filter_cons, hq] using ih
      · have hq2 : connActiveMatch x y p = false := by
          cases hqq : connActiveMatch x y p
          · rfl
          · exact absurd hqq hq
        simpa [activeFor, List.filter_cons, hq2] using ih

/-- Every record the active query returns carries the queried user id and a
null `leftAt`. -/
theorem activeFor_shape (cs : List (String × ConnRec)) (u r : String) :
    ∀ c ∈ activeFor cs u r,
      c.userId = JsVal.num (jsNumber u) ∧ c.leftAt = none := by
  intro c hc
  simp only [activeFor, List.mem_map] at hc
  obtain ⟨p, hp, rfl⟩ := hc
  have h2 := (List.mem_filter.mp hp).2
  simp only [connActiveMatch, Bool.and_eq_true, decide_eq_true_eq] at h2
  exact ⟨h2.1.2, h2.2⟩

/-- Two pairs with the same room id and the same `Number`-coerced user id
are matched by exactly the same query. -/
theorem connActiveMatch_key (u r x y : String)
    (hy : y = r) (hx : jsNumber x = jsNumber u) :
    connActiveMatch x y = connActiveMatch u r := by
  funext p
  simp [connActiveMatch, hy, hx]

/-- `createConnection` at its own key: a fresh record when none is active,
otherwise a `joinedAt` refresh of the first active record. -/
theorem activeFor_createConnection_same (now : Nat) (u r : String)
    (cs : List (String × ConnRec)) :
    activeFor (createConnection now u r cs) u r
      = if activeFor cs u r = [] then [⟨JsVal.num (jsNumber u), now, none⟩]
        else (activeFor cs u r).modifyHead
          (fun c => { c with joinedAt := now, leftAt := none }) := by
  by_cases he : (cs.filter (connActiveMatch u r)).isEmpty = true
  · have hfil : cs.filter (connActiveMatch u r) = [] := List.isEmpty_iff.mp he
    have hnil : activeFor cs u r = [] := by
      simp [activeFor, hfil]
    have hx : connActiveMatch u r (r, ⟨JsVal.num (jsNumber u), now, none⟩) = true := by
      simp [connActiveMatch]
    rw [createConnection, if_pos he, if_pos hnil]
    simp [activeFor, List.filter_append, hfil, hx]
  · have hne : ¬ activeFor cs u r = [] := by
      intro hnil
      apply he
      rw [List.isEmpty_iff]
      simpa [activeFor] using hnil
    rw [createConnection, if_neg he, if_neg hne]
    exact activeFor_refreshConn_same now u r cs

/-- One `createConnection` call preserves the at-most-one-active-record
invariant at every key. -/
theorem createConnection_preserves_unique (now : Nat) (u r : String)
    (cs : List (String × ConnRec))
    (hinv : ∀ x y, (activeFor cs x y).length ≤ 1) :
    ∀ x y, (activeFor (createConnection now u r cs) x y).length ≤ 1 := by
  intro x y
  by_cases hk : y = r ∧ jsNumber x = jsNumber u
  · have hfun : connActiveMatch x y = connActiveMatch u r :=
      connActiveMatch_key u r x y hk.1 hk.2
    have heq : activeFor (createConnection now u r cs) x y
        = activeFor (createConnection now u r cs) u r := by
      simp [activeFor, hfun]
    rw [heq, activeFor_createConnection_same]
    by_cases hnil : activeFor cs u r = []
    · simp [hnil]
    · have h1 := hinv u r
      have hfun2 : activeFor cs x y = activeFor cs u r := by
        simp [activeFor, hfun]
      rw [if_neg hnil]
      rw [List.length_modifyHead]
      exact h1
  · rw [createConnection]
    by_cases he : (cs.filter (connActiveMatch u r)).isEmpty = true
    · rw [if_pos he]
      have hx : connActiveMatch x y (r, ⟨JsVal.num (jsNumber u), now, none⟩)
          = false := by
        have hno : ¬ (r = y ∧ JsVal.num (jsNumber u) = JsVal.num (jsNumber x)) := by
          rintro ⟨hy, hn⟩
          exact hk ⟨hy.symm, (by simpa using hn.symm)⟩
        rcases not_and_or.mp hno with h | h
        · simp [connActiveMatch, h]
        · simp [connActiveMatch, h]
      calc (activeFor (cs ++ [(r, ⟨JsVal.num (jsNumber u), now, none⟩)]) x y).length
          = (activeFor cs x y).length := by
            simp [activeFor, List.filter_append, hx]
        _ ≤ 1 := hinv x y
    · rw [if_neg he]
      rw [activeFor_refreshConn_length]
      exact hinv x y

/-- The presence registry at the pair's own key after `replaceSocketId`:
a `modifyHead` on the socket handle. -/
theorem presFor_replaceSocketId (sid u r : String) (l : List OnlineUser) :
    presFor (replaceSocketId sid u r l) u r
      = (presFor l u r).modifyHead (fun o => { o with socketId := sid }) := by
  induction l with
  | nil => rfl
  | cons o t ih =>
    by_cases hp : o.userId = u ∧ o.roomId = r
    · simp [replaceSocketId, hp, presFor, List.filter_cons]
    · simp only [replaceSocketId, if_neg hp]
      simpa [presFor, List.filter_cons, hp] using ih

/-- `addUserConnection` at its own key: a fresh entry when the pair is
absent, otherwise a socket-handle update of the first matching entry. -/
theorem presFor_addUserConnection (sid u r : String) (l : List OnlineUser) :
    presFor (addUserConnection sid u r l) u r
      = if presFor l u r = [] then [⟨sid, u, r⟩]
        else (presFor l u r).modifyHead (fun o => { o with socketId := sid }) := by
  by_cases ha : l.any (fun o => decide (o.userId = u ∧ o.roomId = r)) = true
  · have hne : ¬ presFor l u r = [] := by
      simp only [List.any_eq_true] at ha
      obtain ⟨o, ho, hpo⟩ := ha
      intro hnil
      have hmem : o ∈ presFor l u r := List.mem_filter.mpr ⟨ho, hpo⟩
      rw [hnil] at hmem
      exact absurd hmem (List.not_mem_nil o)
    rw [addUserConnection, if_pos ha, if_neg hne]
    exact presFor_replaceSocketId sid u r l
  · have hnil : presFor l u r = [] := by
      rw [presFor, List.filter_eq_nil_iff]
      intro o ho hdec
      exact ha (List.any_eq_true.mpr ⟨o, ho, hdec⟩)
    rw [addUserConnection, if_neg ha, if_pos hnil]
    have hnil2 : l.filter (fun o => decide (o.userId = u ∧ o.roomId = r)) = [] := hnil
    simp only [presFor, List.filter_append]
    rw [hnil2]
    simp

/-- Every entry the presence query returns carries the queried pair. -/
theorem presFor_shape (l : List OnlineUser) (u r : String) :
    ∀ o ∈ presFor l u r, o.userId = u ∧ o.roomId = r := by
  intro o ho
  have h2 := (List.mem_filter.mp ho).2
  simpa using h2

/-- C7: from any state satisfying the at-most-one-active-record invariant
for a `(userId, roomId)` pair, two `createConnection` calls in a row (a
double join with no leave) leave exactly one active connection record — the
second call refreshes `joinedAt` on the existing record instead of
duplicating it — and two `addUserConnection` calls leave exactly one
presence entry whose socket handle is the second (superseding) socket;
moreover any sequence of joins preserves the invariant at every key. -/
theorem idempotent_join_single_record
    (conns : List (String × ConnRec)) (online : List OnlineUser)
    (u r sid1 sid2 : String) (t1 t2 : Nat)
    (hc : (activeFor conns u r).length ≤ 1)
    (hp : (presFor online u r).length ≤ 1) :
    activeFor (createConnection t2 u r (createConnection t1 u r conns)) u r
        = [⟨JsVal.num (jsNumber u), t2, none⟩]
    ∧ presFor (addUserConnection sid2 u r
          (addUserConnection sid1 u r online)) u r
        = [⟨sid2, u, r⟩]
    ∧ ∀ (cs : List (String × ConnRec)) (joins : List (Nat × String × String)),
        (∀ x y, (activeFor cs x y).length ≤ 1) →
        ∀ x y, (activeFor (joins.foldl
            (fun acc j => createConnection j.1 j.2.1 j.2.2 acc) cs) x y).length
          ≤ 1 := by
  refine ⟨?_, ?_, ?_⟩
  · have h1 : activeFor (createConnection t1 u r conns) u r
        = [⟨JsVal.num (jsNumber u), t1, none⟩] := by
      rw [activeFor_createConnection_same]
      cases hl : activeFor conns u r with
      | nil => simp
      | cons c rest =>
        have hrest : rest = [] := by
          rw [hl] at hc
          simpa using hc
        subst hrest
        have hshape := activeFor_shape conns u r c (by rw [hl]; exact List.mem_cons_self c [])
        simp [List.modifyHead_cons, hshape.1]
    rw [activeFor_createConnection_same, h1]
    simp [List.modifyHead_cons]
  · have h1 : presFor (addUserConnection sid1 u r online) u r = [⟨sid1, u, r⟩] := by
      rw [presFor_addUserConnection]
      cases hl : presFor online u r with
      | nil => simp
      | cons o rest =>
        have hrest : rest = [] := by
          rw [hl] at hp
          simpa using hp
        subst hrest
        have hshape := presFor_shape online u r o (by rw [hl]; exact List.mem_cons_self o [])
        simp [List.modifyHead_cons, hshape.1, hshape.2]
    rw [presFor_addUserConnection, h1]
    simp [List.modifyHead_cons]
  · intro cs joins
    induction joins generalizing cs with
    | nil => exact fun hinv => hinv
    | cons j t ih =>
      intro hinv
      exact ih (createConnection j.1 j.2.1 j.2.2 cs)
        (createConnection_preserves_unique j.1 j.2.1 j.2.2 cs hinv)

/-- Witness for C7 from initially empty stores. -/
theorem idempotent_join_single_record_witness :
    activeFor (createConnection 2 "U1" "r" (createConnection 1 "U1" "r" []))
        "U1" "r"
      = [⟨JsVal.num (jsNumber "U1"), 2, none⟩]
    ∧ presFor (addUserConnection "s2" "U1" "r"
          (addUserConnection "s1" "U1" "r" [])) "U1" "r"
      = [⟨"s2", "U1", "r"⟩] := by
  have h := idempotent_join_single_record [] [] "U1" "r" "s1" "s2" 1 2
    (by decide) (by decide)
  exact ⟨h.1, h.2.1⟩

end Charlaton
